import Mathlib

/-!
Verification of the kinematic character controller movement core of the
kcc_prototyping repository.

The development shallowly embeds the Rust source in Lean 4 over exact real
arithmetic: glam f32 vectors become `Vec3` with real components, shape casts
against the physics world become an oracle function passed to the solver, and
the `FnMut` on-hit callback becomes an explicit state-passing function.
Machine-float constants are translated to their decimal literals, and
`f32::EPSILON` to its exact value 2 to the power -23.

Embedded source:
  - `src/move_and_slide.rs`: `character_sweep`, `MoveAndSlideConfig`,
    `move_and_slide`, `similar_plane`, `solve_collision_planes`.
  - `src/movement.rs`: `Character::launch`.
  - `examples/3d_simple_character/plugin.rs`: `try_step_up_on_hit`.
  - The crate `character` module (`is_walkable`, `Ground::new_if_walkable`,
    `try_climb_step`) is not among the provided sources; the walkability test
    and `Ground` construction are modelled from the spec, and `try_climb_step`
    is an oracle parameter.
-/

open Classical

/-- 3D vector with real components: the exact-arithmetic model of glam `Vec3`. -/
@[ext]
structure Vec3 where
  x : ℝ
  y : ℝ
  z : ℝ

namespace Vec3

instance : Zero Vec3 := ⟨⟨0, 0, 0⟩⟩

instance : Add Vec3 := ⟨fun a b => ⟨a.x + b.x, a.y + b.y, a.z + b.z⟩⟩

instance : Sub Vec3 := ⟨fun a b => ⟨a.x - b.x, a.y - b.y, a.z - b.z⟩⟩

instance : SMul ℝ Vec3 := ⟨fun c v => ⟨c * v.x, c * v.y, c * v.z⟩⟩

@[simp] theorem zero_x : (0 : Vec3).x = 0 := rfl

@[simp] theorem zero_y : (0 : Vec3).y = 0 := rfl

@[simp] theorem zero_z : (0 : Vec3).z = 0 := rfl

@[simp] theorem add_x (a b : Vec3) : (a + b).x = a.x + b.x := rfl

@[simp] theorem add_y (a b : Vec3) : (a + b).y = a.y + b.y := rfl

@[simp] theorem add_z (a b : Vec3) : (a + b).z = a.z + b.z := rfl

@[simp] theorem sub_x (a b : Vec3) : (a - b).x = a.x - b.x := rfl

@[simp] theorem sub_y (a b : Vec3) : (a - b).y = a.y - b.y := rfl

@[simp] theorem sub_z (a b : Vec3) : (a - b).z = a.z - b.z := rfl

@[simp] theorem smul_x (c : ℝ) (v : Vec3) : (c • v).x = c * v.x := rfl

@[simp] theorem smul_y (c : ℝ) (v : Vec3) : (c • v).y = c * v.y := rfl

@[simp] theorem smul_z (c : ℝ) (v : Vec3) : (c • v).z = c * v.z := rfl

/-- glam `Vec3::dot`. -/
def dot (a b : Vec3) : ℝ := a.x * b.x + a.y * b.y + a.z * b.z

/-- glam `Vec3::cross`. -/
def cross (a b : Vec3) : Vec3 :=
  ⟨a.y * b.z - a.z * b.y, a.z * b.x - a.x * b.z, a.x * b.y - a.y * b.x⟩

/-- glam `Vec3::length_squared`. -/
def lengthSq (v : Vec3) : ℝ := dot v v

/-- glam `Vec3::length`. -/
noncomputable def length (v : Vec3) : ℝ := Real.sqrt (lengthSq v)

/-- glam `Vec3::normalize_or_zero`: the normalized vector, or zero when the
input has zero length (the exact-arithmetic reading of the reciprocal-length
finiteness check). -/
noncomputable def normalizeOrZero (v : Vec3) : Vec3 :=
  if v = 0 then 0 else (length v)⁻¹ • v

/-- glam `Vec3::reject_from_normalized`: `self - other * self.dot(other)`. -/
def rejectFromNormalized (v n : Vec3) : Vec3 := v - dot v n • n

/-- glam `Vec3::project_onto`: `other * (self.dot(other) / other.length_squared())`.
Division by zero follows the exact-arithmetic convention 0 (the f32 original
would produce NaN there; no claim depends on that corner). -/
noncomputable def projectOnto (v w : Vec3) : Vec3 := (dot v w / lengthSq w) • w

/-- bevy `Dir3::new`: fails on a vector that cannot be normalized, otherwise
returns the normalized direction. -/
noncomputable def dir3New (v : Vec3) : Option Vec3 :=
  if v = 0 then none else some (normalizeOrZero v)

theorem dot_comm (a b : Vec3) : dot a b = dot b a := by
  simp only [dot]; ring

@[simp] theorem dot_zero_left (b : Vec3) : dot 0 b = 0 := by
  simp [dot]

@[simp] theorem dot_zero_right (a : Vec3) : dot a 0 = 0 := by
  simp [dot]

theorem dot_smul_left (c : ℝ) (a b : Vec3) : dot (c • a) b = c * dot a b := by
  simp only [dot, smul_x, smul_y, smul_z]; ring

theorem dot_add_left (a b w : Vec3) : dot (a + b) w = dot a w + dot b w := by
  simp only [dot, add_x, add_y, add_z]; ring

theorem dot_sub_left (a b w : Vec3) : dot (a - b) w = dot a w - dot b w := by
  simp only [dot, sub_x, sub_y, sub_z]; ring

theorem lengthSq_nonneg (v : Vec3) : 0 ≤ lengthSq v := by
  simp only [lengthSq, dot]
  nlinarith [sq_nonneg v.x, sq_nonneg v.y, sq_nonneg v.z]

theorem lengthSq_eq_zero_iff (v : Vec3) : lengthSq v = 0 ↔ v = 0 := by
  constructor
  · intro h
    have hx : v.x ^ 2 + v.y ^ 2 + v.z ^ 2 = 0 := by
      simp only [lengthSq, dot] at h; nlinarith [h]
    have h1 := sq_nonneg v.x
    have h2 := sq_nonneg v.y
    have h3 := sq_nonneg v.z
    ext
    · simp only [zero_x]; nlinarith
    · simp only [zero_y]; nlinarith
    · simp only [zero_z]; nlinarith
  · intro h; subst h; simp [lengthSq]

theorem lengthSq_pos_of_ne (v : Vec3) (h : v ≠ 0) : 0 < lengthSq v := by
  rcases lt_or_eq_of_le (lengthSq_nonneg v) with hlt | heq
  · exact hlt
  · exact absurd ((lengthSq_eq_zero_iff v).mp heq.symm) h

theorem length_pos_of_ne (v : Vec3) (h : v ≠ 0) : 0 < length v :=
  Real.sqrt_pos.mpr (lengthSq_pos_of_ne v h)

theorem length_sq_eq (v : Vec3) : length v * length v = lengthSq v :=
  Real.mul_self_sqrt (lengthSq_nonneg v)

/-- A normalized nonzero vector is a unit vector. -/
theorem dot_normalizeOrZero_self (v : Vec3) (h : v ≠ 0) :
    dot (normalizeOrZero v) (normalizeOrZero v) = 1 := by
  have hl := length_pos_of_ne v h
  have hls := length_sq_eq v
  simp only [normalizeOrZero, if_neg h]
  rw [dot_smul_left, dot_comm, dot_smul_left, dot_comm, ← lengthSq, ← hls]
  field_simp

theorem dot_normalizeOrZero_left (v w : Vec3) :
    dot (normalizeOrZero v) w = (length v)⁻¹ * dot v w := by
  by_cases h : v = 0
  · subst h
    simp [normalizeOrZero, length, lengthSq]
  · simp only [normalizeOrZero, if_neg h, dot_smul_left]

/-- The cross product is orthogonal to its first factor. -/
theorem dot_cross_left (a b : Vec3) : dot (cross a b) a = 0 := by
  simp only [dot, cross]; ring

/-- Cauchy-Schwarz for the 3D dot product, by the Lagrange identity. -/
theorem dot_sq_le (a b : Vec3) : dot a b ^ 2 ≤ lengthSq a * lengthSq b := by
  simp only [dot, lengthSq]
  nlinarith [sq_nonneg (a.x * b.y - a.y * b.x), sq_nonneg (a.x * b.z - a.z * b.x),
    sq_nonneg (a.y * b.z - a.z * b.y)]

end Vec3

/-! ## The plane-projection solver (`src/move_and_slide.rs`) -/

/-- Source constant `SIMILARITY_THRESHOLD: f32 = 0.999`. -/
noncomputable def SIMILARITY_THRESHOLD : ℝ := 999 / 1000

/-- Machine constant `f32::EPSILON`, exactly 2 to the power -23. -/
noncomputable def f32EPS : ℝ := 1 / 8388608

/-- Function `similar_plane` from `src/move_and_slide.rs`. -/
def similarPlane (normal1 normal2 : Vec3) : Prop :=
  Vec3.dot normal1 normal2 > SIMILARITY_THRESHOLD

/-- Rust `Iterator::filter`, on a propositional predicate. -/
noncomputable def filterPlanes (p : Vec3 → Prop) : List Vec3 → List Vec3
  | [] => []
  | n :: rest => if p n then n :: filterPlanes p rest else filterPlanes p rest

/-- Rust `Iterator::try_fold` merged with the trailing
`unwrap_or_else(|vel| vel)`: an `inl` result stops the fold and is returned
as is, an `inr` result continues folding. -/
noncomputable def tryFoldVel (f : Vec3 → Vec3 → Vec3 ⊕ Vec3) : Vec3 → List Vec3 → Vec3
  | vel, [] => vel
  | vel, n :: rest =>
    match f vel n with
    | Sum.inl stop => stop
    | Sum.inr cont => tryFoldVel f cont rest

/-- The closure folded over the filtered constraint planes in
`solve_collision_planes` (the body of `filtered_hits.try_fold`). -/
noncomputable def solveFoldStep (first_hit_normal : Vec3) (all_hits : List Vec3)
    (vel0 second_hit_normal : Vec3) : Vec3 ⊕ Vec3 :=
  let vel := Vec3.rejectFromNormalized vel0 second_hit_normal
  let vel_dir := Vec3.normalizeOrZero vel
  if similarPlane vel_dir first_hit_normal then
    if Vec3.lengthSq vel ≤ f32EPS then Sum.inl vel else Sum.inr vel
  else
    let crease_dir := Vec3.normalizeOrZero (Vec3.cross first_hit_normal second_hit_normal)
    let vel_proj := Vec3.projectOnto vel crease_dir
    let vel_proj_dir := Vec3.normalizeOrZero vel_proj
    if ∃ third ∈ all_hits, ¬ similarPlane first_hit_normal third ∧
        ¬ similarPlane second_hit_normal third ∧ similarPlane vel_proj_dir third then
      Sum.inl (vel_proj + (1 / 100 : ℝ) •
        Vec3.normalizeOrZero (first_hit_normal + second_hit_normal))
    else if Vec3.lengthSq vel_proj ≤ f32EPS then
      Sum.inl vel_proj
    else
      Sum.inr vel_proj

/-- Function `solve_collision_planes` from `src/move_and_slide.rs`. -/
noncomputable def solveCollisionPlanes (velocity : Vec3) (hits : List Vec3)
    (original_velocity_direction : Vec3) : Vec3 :=
  if Vec3.lengthSq velocity ≤ 0 ∨ Vec3.lengthSq original_velocity_direction ≤ 0 then 0
  else if hits = [] then velocity
  else
    let first_hit_normal := hits.getLastD 0
    if Vec3.dot velocity first_hit_normal ≥ 0 then velocity
    else
      let initial_velocity := Vec3.rejectFromNormalized velocity first_hit_normal
      let original_velocity_normal := Vec3.normalizeOrZero original_velocity_direction
      let all_hits := original_velocity_normal :: hits
      let filtered_hits := filterPlanes
        (fun n => ¬ similarPlane first_hit_normal n ∧
          ¬ similarPlane original_velocity_normal n) all_hits
      tryFoldVel (solveFoldStep first_hit_normal all_hits) initial_velocity filtered_hits

/-! ## The sweep primitive and the move-and-slide loop (`src/move_and_slide.rs`)

The physics engine primitive `SpatialQuery::cast_shape` is an external collaborator:
it is modelled as an oracle function from the cast origin, direction and
maximum distance to an optional hit. The collider shape, the rotation and the
query filter are fixed for one `move_and_slide` call and are absorbed into the
oracle. -/

/-- avian `ShapeHitData`, restricted to the fields the solver consumes. -/
structure ShapeHitData where
  distance : ℝ
  normal1 : Vec3
  entity : ℕ

/-- The shape-cast oracle: origin, direction, max distance to optional hit. -/
def SweepWorld : Type := Vec3 → Vec3 → ℝ → Option ShapeHitData

/-- Function `character_sweep` from `src/move_and_slide.rs`: cast, then pair the hit
with the safe distance `max(hit.distance - epsilon, 0)`. -/
noncomputable def characterSweep (world : SweepWorld) (epsilon : ℝ)
    (origin : Vec3) (direction : Vec3) (distance : ℝ) : Option (ℝ × ShapeHitData) :=
  match world origin direction distance with
  | none => none
  | some hit => some (max (hit.distance - epsilon) 0, hit)

/-- Struct `MoveAndSlideConfig` from `src/move_and_slide.rs`. -/
structure MoveAndSlideConfig where
  max_iterations : ℕ
  skin_width : ℝ
  epsilon : ℝ

/-- Default values `MoveAndSlideConfig::default()`. -/
noncomputable def MoveAndSlideConfig.default : MoveAndSlideConfig :=
  ⟨4, 1 / 100, 1 / 10000⟩

/-- The data handed to the `on_hit` callback (`MoveAndSlideHit`), with the
mutable borrows replaced by the current values. -/
structure MoveAndSlideHitIn where
  raw_hit : ShapeHitData
  remaining_time : ℝ
  safe_movement_distance : ℝ
  velocity : Vec3
  translation : Vec3

/-- The `FnMut(&mut MoveAndSlideHit)` callback, modelled by explicit state
passing: from the callback state and the hit data to the updated callback
state and the values written back through `out_velocity`/`out_translation`. -/
def OnHitCallback (σ : Type) : Type :=
  σ → MoveAndSlideHitIn → σ × Vec3 × Vec3

/-- A callback that inspects the hit and writes nothing back. -/
def noopOnHit : OnHitCallback Unit :=
  fun s input => (s, input.velocity, input.translation)

/-- Expression `Dir3::new(direction).unwrap_or(Dir3::Y)` from the sweep call. -/
noncomputable def dir3UnwrapOrY (v : Vec3) : Vec3 :=
  match Vec3.dir3New v with
  | some d => d
  | none => ⟨0, 1, 0⟩

/-- The loop state of `move_and_slide`. `finished` models having run `break`;
`sweeps` counts the `character_sweep` calls made so far (a verification
artifact, written by no branch of the original). -/
structure LoopState (σ : Type) where
  translation : Vec3
  velocity : Vec3
  remainingTime : ℝ
  hits : List Vec3
  userState : σ
  finished : Bool
  sweeps : ℕ

/-- One iteration of the `for _ in 0..config.max_iterations` loop of
`move_and_slide`. A `finished` state is returned unchanged. -/
noncomputable def moveAndSlideIter {σ : Type} (world : SweepWorld)
    (config : MoveAndSlideConfig) (onHit : OnHitCallback σ)
    (original_direction : Vec3) (s : LoopState σ) : LoopState σ :=
  if s.finished then s else
  let max_distance := Vec3.length s.velocity * s.remainingTime
  let direction := Vec3.normalizeOrZero s.velocity
  match characterSweep world config.epsilon s.translation (dir3UnwrapOrY direction)
      (max_distance + config.skin_width) with
  | none =>
    -- No collision, move the full remaining distance and break
    { s with translation := s.translation + s.remainingTime • s.velocity,
             finished := true, sweeps := s.sweeps + 1 }
  | some (safe_movement, hit) =>
    let r := onHit s.userState
      ⟨hit, s.remainingTime, safe_movement, s.velocity, s.translation⟩
    let hits := s.hits ++ [hit.normal1]
    let velocity := solveCollisionPlanes r.2.1 hits original_direction
    if Vec3.dot velocity original_direction ≤ 0 then
      -- Quake2 early stop: break before advancing the translation
      { translation := r.2.2, velocity := velocity, remainingTime := s.remainingTime,
        hits := hits, userState := r.1, finished := true, sweeps := s.sweeps + 1 }
    else
      let movement := max (safe_movement - config.skin_width) 0
      let frac := if max_distance > 0 then
          min (max (movement / max_distance) 0) 1 else 0
      { translation := r.2.2 + movement • direction, velocity := velocity,
        remainingTime := s.remainingTime * (1 - frac), hits := hits,
        userState := r.1, finished := false, sweeps := s.sweeps + 1 }

/-- Function `move_and_slide` from `src/move_and_slide.rs`: the early return on a
velocity with no direction, then up to `max_iterations` loop iterations.
The returned state carries the final translation and velocity. -/
noncomputable def moveAndSlide {σ : Type} (world : SweepWorld)
    (config : MoveAndSlideConfig) (onHit : OnHitCallback σ)
    (translation velocity : Vec3) (delta_time : ℝ) (s0 : σ) : LoopState σ :=
  let start : LoopState σ := ⟨translation, velocity, delta_time, [], s0, false, 0⟩
  match Vec3.dir3New velocity with
  | none => start
  | some original_direction =>
    (moveAndSlideIter world config onHit original_direction)^[config.max_iterations] start

/-! ## Ground classification and step climbing

Here `is_walkable`, `Ground` and `Ground::new_if_walkable` live in the
crate `character` module, which is not among the provided sources (only their
callers are); they are modelled from the spec here. `try_climb_step` is also
from that module and is passed as an oracle from the step motion to the
optional settled translation and hit. -/

/-- glam `Vec3::angle_between`, the angle between two vectors. -/
noncomputable def angleBetween (a b : Vec3) : ℝ :=
  Real.arccos (Vec3.dot a b / (Vec3.length a * Vec3.length b))

/-- Modelled from the spec: `is_walkable` from the missing `character` module.
The spec defines it as: a surface normal `n` is walkable under `up` and
`angle_limit` iff `angle_between(n, up) < angle_limit`. -/
noncomputable def isWalkable (normal up : Vec3) (angle_limit : ℝ) : Prop :=
  angleBetween normal up < angle_limit

/-- Modelled from the spec: `Ground` from the missing `character` module, a
snapshot of a contact surface holding the surface identity and its normal. -/
structure Ground where
  entity : ℕ
  normal : Vec3

/-- Modelled from the spec: `Ground::new_if_walkable` from the missing
`character` module. The spec states a `Ground` is only constructed when the
normal passes the walkability test; the argument shape follows the call sites
in `examples/3d_simple_character/plugin.rs`. -/
noncomputable def groundNewIfWalkable (entity : ℕ) (normal up : Vec3)
    (angle_limit : ℝ) : Option Ground :=
  if isWalkable normal up angle_limit then some ⟨entity, normal⟩ else none

/-- Struct `StepUpResult` from `examples/3d_simple_character/plugin.rs`. -/
structure StepUpResult where
  translation : Vec3
  move_time : ℝ
  ground : Ground

/-- Function `try_step_up_on_hit` from `examples/3d_simple_character/plugin.rs`.
`climb` is the `try_climb_step` oracle (that function lives in the missing
`character` module): it takes the computed step motion and yields the settled
translation and hit, if any. The source constants `WALKABLE_ANGLE` and
`CHARACTER_RADIUS` are the parameters `walkable_angle` and
`character_radius`. -/
noncomputable def tryStepUpOnHit (climb : Vec3 → Option (Vec3 × ShapeHitData))
    (walkable_angle character_radius : ℝ) (up : Vec3) (hit_normal : Vec3)
    (direction : Vec3) (step_forward0 : ℝ) (epsilon : ℝ) (delta_time : ℝ) :
    Option StepUpResult :=
  let horizontal_normal :=
    Vec3.normalizeOrZero (Vec3.rejectFromNormalized hit_normal up)
  let a := 1 - Real.cos walkable_angle
  let min_inward_distance := character_radius * a
  let inward := min_inward_distance + epsilon * Real.pi
  let step_forward := max (step_forward0 - inward) 0
  let step_motion := step_forward • direction - inward • horizontal_normal
  match climb step_motion with
  | none => none
  | some (step_translation, hit) =>
    match groundNewIfWalkable hit.entity hit.normal1 up (walkable_angle - 1 / 10000) with
    | none => none
    | some ground =>
      if ¬ isWalkable hit.normal1 up (walkable_angle - 1 / 10000) then none
      else some ⟨step_translation, (step_forward + inward) * delta_time, ground⟩

/-! ## Character state (`src/movement.rs`) -/

/-- The `Character` component of `src/movement.rs`, restricted to the fields
`launch` touches. -/
structure Character where
  velocity : Vec3
  ground : Option Ground
  up : Vec3

/-- Method `Character::launch` from `src/movement.rs`: clear the ground when the
impulse points away from its normal, then add the impulse to the velocity. -/
noncomputable def Character.launch (c : Character) (impulse : Vec3) : Character :=
  let cleared :=
    match c.ground with
    | some ground =>
      if Vec3.dot ground.normal impulse > 0 then { c with ground := none } else c
    | none => c
  { cleared with velocity := cleared.velocity + impulse }

/-! ## Claim theorems -/

/-- Claim C7: for a character standing on some ground, `Character::launch`
clears the ground field iff the impulse has positive dot product with the
ground normal, and always adds the impulse to the velocity; in particular an
impulse orthogonal to the ground normal leaves the ground set. -/
theorem launch_clears_ground_iff (c : Character) (g : Ground) (i : Vec3)
    (h : c.ground = some g) :
    ((c.launch i).ground = none ↔ Vec3.dot g.normal i > 0) ∧
    (c.launch i).velocity = c.velocity + i := by
  unfold Character.launch
  rw [h]
  by_cases hd : Vec3.dot g.normal i > 0
  · simp [hd]
  · simp [hd, h]

theorem launch_clears_ground_iff_witness :
    ((Character.launch ⟨0, some ⟨0, ⟨0, 1, 0⟩⟩, ⟨0, 1, 0⟩⟩ ⟨1, 0, 0⟩).ground = none ↔
      Vec3.dot ⟨0, 1, 0⟩ ⟨1, 0, 0⟩ > 0) ∧
    (Character.launch ⟨0, some ⟨0, ⟨0, 1, 0⟩⟩, ⟨0, 1, 0⟩⟩ ⟨1, 0, 0⟩).velocity =
      0 + ⟨1, 0, 0⟩ :=
  launch_clears_ground_iff ⟨0, some ⟨0, ⟨0, 1, 0⟩⟩, ⟨0, 1, 0⟩⟩ ⟨0, ⟨0, 1, 0⟩⟩ ⟨1, 0, 0⟩ rfl

/-- Claim C2 (amended): every hit reported by `character_sweep` carries the
safe distance `max(hit.distance - epsilon, 0)`; that value is never negative,
and it never exceeds `hit.distance - epsilon` whenever the hit is at least
`epsilon` away. -/
theorem characterSweep_safe_distance (world : SweepWorld) (epsilon : ℝ)
    (origin direction : Vec3) (distance safe : ℝ) (hit : ShapeHitData)
    (h : characterSweep world epsilon origin direction distance = some (safe, hit)) :
    safe = max (hit.distance - epsilon) 0 ∧ 0 ≤ safe ∧
      (epsilon ≤ hit.distance → safe ≤ hit.distance - epsilon) := by
  unfold characterSweep at h
  cases hw : world origin direction distance with
  | none => rw [hw] at h; exact absurd h (by simp)
  | some h0 =>
    rw [hw] at h
    have h1 : max (h0.distance - epsilon) 0 = safe ∧ h0 = hit := by
      have := Option.some.inj h
      exact ⟨congrArg Prod.fst this, congrArg Prod.snd this⟩
    obtain ⟨hsafe, hhit⟩ := h1
    subst hhit
    refine ⟨hsafe.symm, ?_, ?_⟩
    · rw [← hsafe]; exact le_max_right _ _
    · intro hle
      rw [← hsafe, max_eq_left (by linarith)]

theorem characterSweep_safe_distance_witness :
    (0 : ℝ) ≤ max ((1 : ℝ) - 1 / 10000) 0 ∧
    ((1 : ℝ) / 10000 ≤ 1 → max ((1 : ℝ) - 1 / 10000) 0 ≤ 1 - 1 / 10000) := by
  have h := characterSweep_safe_distance (fun _ _ _ => some ⟨1, ⟨0, 1, 0⟩, 0⟩)
    (1 / 10000) 0 ⟨0, 1, 0⟩ 5 (max ((1 : ℝ) - 1 / 10000) 0) ⟨1, ⟨0, 1, 0⟩, 0⟩ rfl
  exact ⟨h.2.1, h.2.2⟩

/-- Claim C2 counterexample: a hit at distance 0 (closer than epsilon) is
reported with safe distance 0, which is strictly greater than the hit
distance minus epsilon; the claimed bound fails for hits closer than
epsilon. -/
theorem characterSweep_exceeds_at_zero :
    characterSweep (fun _ _ _ => some ⟨0, ⟨0, 1, 0⟩, 0⟩) (1 / 10000) 0 ⟨0, 1, 0⟩ 1
      = some (0, ⟨0, ⟨0, 1, 0⟩, 0⟩) ∧
    ¬ ((0 : ℝ) ≤ (0 : ℝ) - 1 / 10000) := by
  constructor
  · unfold characterSweep
    norm_num
  · norm_num

/-- With a single accumulated unit hit normal opposing a nonzero velocity and
a nonzero wish direction, both constraint-candidate planes are filtered out
as similar to themselves, so the fold is empty and the solver returns the
initial rejection. -/
theorem solve_single_hit_reject (v wish n : Vec3)
    (hv : v ≠ 0) (hw : wish ≠ 0) (hn : Vec3.dot n n = 1)
    (hvn : Vec3.dot v n < 0)
    (hsim : ¬ similarPlane (Vec3.normalizeOrZero wish) n) :
    solveCollisionPlanes v [n] wish = Vec3.rejectFromNormalized v n ∧
    Vec3.dot (solveCollisionPlanes v [n] wish) n = 0 := by
  have hsimn : similarPlane n n := by
    simp only [similarPlane, hn, SIMILARITY_THRESHOLD]; norm_num
  have hsimw : similarPlane (Vec3.normalizeOrZero wish) (Vec3.normalizeOrZero wish) := by
    simp only [similarPlane, Vec3.dot_normalizeOrZero_self wish hw, SIMILARITY_THRESHOLD]
    norm_num
  have h1 : ¬ (Vec3.lengthSq v ≤ 0 ∨ Vec3.lengthSq wish ≤ 0) := by
    push_neg
    exact ⟨Vec3.lengthSq_pos_of_ne v hv, Vec3.lengthSq_pos_of_ne wish hw⟩
  have hfilter : filterPlanes
      (fun m => ¬ similarPlane n m ∧ ¬ similarPlane (Vec3.normalizeOrZero wish) m)
      [Vec3.normalizeOrZero wish, n] = [] := by
    have hp1 : ¬ (¬ similarPlane n (Vec3.normalizeOrZero wish) ∧
        ¬ similarPlane (Vec3.normalizeOrZero wish) (Vec3.normalizeOrZero wish)) := by
      intro hcon; exact hcon.2 hsimw
    have hp2 : ¬ (¬ similarPlane n n ∧ ¬ similarPlane (Vec3.normalizeOrZero wish) n) := by
      intro hcon; exact hcon.1 hsimn
    simp only [filterPlanes, if_neg hp1, if_neg hp2]
  have hmain : solveCollisionPlanes v [n] wish = Vec3.rejectFromNormalized v n := by
    unfold solveCollisionPlanes
    rw [if_neg h1, if_neg (by simp : ¬ ([n] : List Vec3) = [])]
    simp only [show ([n] : List Vec3).getLastD 0 = n from rfl]
    rw [if_neg (not_le.mpr hvn)]
    rw [hfilter]
    rfl
  have hperp : Vec3.dot (Vec3.rejectFromNormalized v n) n = 0 := by
    simp only [Vec3.rejectFromNormalized, Vec3.dot_sub_left, Vec3.dot_smul_left, hn]
    ring
  exact ⟨hmain, by rw [hmain]; exact hperp⟩

/-- Claim C1: with a nonzero velocity, a nonzero wish direction, and a single
accumulated unit hit normal opposing the velocity (and not similar to the
wish-direction normal), the solver output is exactly the velocity rejected
from that normal, hence orthogonal to it. -/
theorem solve_single_plane_rejects (v wish n : Vec3)
    (hv : v ≠ 0) (hw : wish ≠ 0) (hn : Vec3.dot n n = 1)
    (hvn : Vec3.dot v n < 0)
    (hsim : ¬ similarPlane (Vec3.normalizeOrZero wish) n) :
    solveCollisionPlanes v [n] wish = Vec3.rejectFromNormalized v n ∧
    Vec3.dot (solveCollisionPlanes v [n] wish) n = 0 :=
  solve_single_hit_reject v wish n hv hw hn hvn hsim

theorem solve_single_plane_rejects_witness :
    Vec3.dot (⟨1, 0, 0⟩ : Vec3) (⟨-1, 0, 0⟩ : Vec3) < 0 ∧
    solveCollisionPlanes ⟨1, 0, 0⟩ [⟨-1, 0, 0⟩] ⟨1, 0, 0⟩ =
      Vec3.rejectFromNormalized ⟨1, 0, 0⟩ ⟨-1, 0, 0⟩ ∧
    Vec3.dot (solveCollisionPlanes ⟨1, 0, 0⟩ [⟨-1, 0, 0⟩] ⟨1, 0, 0⟩) ⟨-1, 0, 0⟩ = 0 := by
  have hv : (⟨1, 0, 0⟩ : Vec3) ≠ 0 := by
    intro h
    have := congrArg Vec3.x h
    norm_num at this
  have hdot : Vec3.dot (Vec3.normalizeOrZero ⟨1, 0, 0⟩) (⟨-1, 0, 0⟩ : Vec3) = -1 := by
    rw [Vec3.dot_normalizeOrZero_left]
    simp [Vec3.length, Vec3.lengthSq, Vec3.dot, Real.sqrt_one]
  have hsim : ¬ similarPlane (Vec3.normalizeOrZero ⟨1, 0, 0⟩) (⟨-1, 0, 0⟩ : Vec3) := by
    simp only [similarPlane, hdot, SIMILARITY_THRESHOLD]
    norm_num
  have h := solve_single_plane_rejects ⟨1, 0, 0⟩ ⟨1, 0, 0⟩ ⟨-1, 0, 0⟩ hv hv
    (by norm_num [Vec3.dot]) (by norm_num [Vec3.dot]) hsim
  exact ⟨by norm_num [Vec3.dot], h.1, h.2⟩

@[simp] theorem Vec3.normalizeOrZero_zero : Vec3.normalizeOrZero 0 = 0 := by
  simp [Vec3.normalizeOrZero]

@[simp] theorem Vec3.lengthSq_zero : Vec3.lengthSq 0 = 0 := by
  simp [Vec3.lengthSq]

@[simp] theorem Vec3.zero_smul_vec (v : Vec3) : (0 : ℝ) • v = 0 := by
  ext <;> simp

@[simp] theorem Vec3.smul_zero_vec (c : ℝ) : c • (0 : Vec3) = 0 := by
  ext <;> simp

@[simp] theorem Vec3.add_zero_vec (v : Vec3) : v + 0 = v := by
  ext <;> simp

@[simp] theorem Vec3.projectOnto_zero_left (w : Vec3) : Vec3.projectOnto 0 w = 0 := by
  simp [Vec3.projectOnto]

/-- Claim C3 counterexample: with the wall normals written as `(1,0,0)` and
`(0,0,1)` and wish velocity `(1,0,1)`, the velocity does not oppose the most
recent hit normal (`dot = 1 ≥ 0`), so the solver returns the full velocity
`(1,0,1)` unchanged, of squared magnitude 2 — not a velocity resolved to
zero up to the small corner nudge. -/
theorem solve_corner_literal_unchanged :
    solveCollisionPlanes ⟨1, 0, 1⟩ [⟨1, 0, 0⟩, ⟨0, 0, 1⟩] ⟨1, 0, 1⟩ = ⟨1, 0, 1⟩ ∧
    Vec3.lengthSq ⟨1, 0, 1⟩ = 2 := by
  constructor
  · unfold solveCollisionPlanes
    rw [if_neg (by norm_num [Vec3.lengthSq, Vec3.dot]),
      if_neg (by simp : ¬ ([⟨1, 0, 0⟩, ⟨0, 0, 1⟩] : List Vec3) = [])]
    simp only [show ([⟨1, 0, 0⟩, ⟨0, 0, 1⟩] : List Vec3).getLastD 0 = ⟨0, 0, 1⟩ from rfl]
    rw [if_pos (by norm_num [Vec3.dot])]
  · norm_num [Vec3.lengthSq, Vec3.dot]

/-- Claim C3 (amended): with the two perpendicular wall normals oriented
against the motion, `(-1,0,0)` and `(0,0,-1)`, and wish velocity `(1,0,1)`,
the solver resolves the velocity to exactly zero: the agent is pinned in the
right-angle corner and no motion into either wall persists (here not even a
nudge remains, since the corner-deadlock test does not fire on a zero
crease projection). -/
theorem solve_corner_resolves_to_zero :
    solveCollisionPlanes ⟨1, 0, 1⟩ [⟨-1, 0, 0⟩, ⟨0, 0, -1⟩] ⟨1, 0, 1⟩ = 0 := by
  have hvne : (⟨1, 0, 1⟩ : Vec3) ≠ 0 := by
    intro h; have := congrArg Vec3.x h; norm_num at this
  have hs2 : (0 : ℝ) < Real.sqrt 2 := Real.sqrt_pos.mpr (by norm_num)
  have hlsq : Vec3.lengthSq ⟨1, 0, 1⟩ = 2 := by norm_num [Vec3.lengthSq, Vec3.dot]
  have hlen : Vec3.length ⟨1, 0, 1⟩ = Real.sqrt 2 := by rw [Vec3.length, hlsq]
  have hwn : Vec3.normalizeOrZero ⟨1, 0, 1⟩ =
      ⟨(Real.sqrt 2)⁻¹, 0, (Real.sqrt 2)⁻¹⟩ := by
    rw [Vec3.normalizeOrZero, if_neg hvne, hlen]
    ext <;> simp
  have hwnsim : similarPlane (Vec3.normalizeOrZero ⟨1, 0, 1⟩)
      (Vec3.normalizeOrZero ⟨1, 0, 1⟩) := by
    simp only [similarPlane, Vec3.dot_normalizeOrZero_self _ hvne, SIMILARITY_THRESHOLD]
    norm_num
  have hfilt : filterPlanes
      (fun m => ¬ similarPlane (⟨0, 0, -1⟩ : Vec3) m ∧
        ¬ similarPlane (Vec3.normalizeOrZero ⟨1, 0, 1⟩) m)
      [Vec3.normalizeOrZero ⟨1, 0, 1⟩, ⟨-1, 0, 0⟩, ⟨0, 0, -1⟩] = [⟨-1, 0, 0⟩] := by
    have hp1 : ¬ (¬ similarPlane (⟨0, 0, -1⟩ : Vec3) (Vec3.normalizeOrZero ⟨1, 0, 1⟩) ∧
        ¬ similarPlane (Vec3.normalizeOrZero ⟨1, 0, 1⟩) (Vec3.normalizeOrZero ⟨1, 0, 1⟩)) :=
      fun hcon => hcon.2 hwnsim
    have hp2 : ¬ similarPlane (⟨0, 0, -1⟩ : Vec3) (⟨-1, 0, 0⟩ : Vec3) ∧
        ¬ similarPlane (Vec3.normalizeOrZero ⟨1, 0, 1⟩) (⟨-1, 0, 0⟩ : Vec3) := by
      constructor
      · simp only [similarPlane, Vec3.dot, SIMILARITY_THRESHOLD]; norm_num
      · rw [hwn]
        simp only [similarPlane, Vec3.dot, SIMILARITY_THRESHOLD]
        intro hcon
        nlinarith [inv_pos.mpr hs2]
    have hp3 : ¬ (¬ similarPlane (⟨0, 0, -1⟩ : Vec3) (⟨0, 0, -1⟩ : Vec3) ∧
        ¬ similarPlane (Vec3.normalizeOrZero ⟨1, 0, 1⟩) (⟨0, 0, -1⟩ : Vec3)) := by
      intro hcon
      exact hcon.1 (by simp only [similarPlane, Vec3.dot, SIMILARITY_THRESHOLD]; norm_num)
    simp only [filterPlanes, if_neg hp1, if_pos hp2, if_neg hp3]
  have hreject0 : Vec3.rejectFromNormalized ⟨1, 0, 1⟩ ⟨0, 0, -1⟩ = ⟨1, 0, 0⟩ := by
    simp only [Vec3.rejectFromNormalized, Vec3.dot]
    ext <;> simp
  have hreject1 : Vec3.rejectFromNormalized (⟨1, 0, 0⟩ : Vec3) ⟨-1, 0, 0⟩ = 0 := by
    simp only [Vec3.rejectFromNormalized, Vec3.dot]
    ext <;> simp
  have hnsim0 : ¬ similarPlane (0 : Vec3) (⟨0, 0, -1⟩ : Vec3) := by
    simp only [similarPlane, Vec3.dot_zero_left, SIMILARITY_THRESHOLD]
    norm_num
  have hnocorner : ¬ ∃ third ∈
      ([Vec3.normalizeOrZero ⟨1, 0, 1⟩, ⟨-1, 0, 0⟩, ⟨0, 0, -1⟩] : List Vec3),
      ¬ similarPlane (⟨0, 0, -1⟩ : Vec3) third ∧
      ¬ similarPlane (⟨-1, 0, 0⟩ : Vec3) third ∧ similarPlane (0 : Vec3) third := by
    rintro ⟨third, hmem, -, -, hsim3⟩
    rw [similarPlane, Vec3.dot_zero_left] at hsim3
    norm_num [SIMILARITY_THRESHOLD] at hsim3
  have hstep : solveFoldStep ⟨0, 0, -1⟩
      [Vec3.normalizeOrZero ⟨1, 0, 1⟩, ⟨-1, 0, 0⟩, ⟨0, 0, -1⟩]
      ⟨1, 0, 0⟩ ⟨-1, 0, 0⟩ = Sum.inl 0 := by
    unfold solveFoldStep
    simp only [hreject1, Vec3.normalizeOrZero_zero, Vec3.projectOnto_zero_left]
    rw [if_neg hnsim0, if_neg hnocorner,
      if_pos (by simp only [Vec3.lengthSq_zero, f32EPS]; norm_num)]
  unfold solveCollisionPlanes
  rw [if_neg (by norm_num [Vec3.lengthSq, Vec3.dot]),
    if_neg (by simp : ¬ ([⟨-1, 0, 0⟩, ⟨0, 0, -1⟩] : List Vec3) = [])]
  simp only [show ([⟨-1, 0, 0⟩, ⟨0, 0, -1⟩] : List Vec3).getLastD 0 = ⟨0, 0, -1⟩ from rfl]
  rw [if_neg (by norm_num [Vec3.dot])]
  rw [hfilt, hreject0]
  simp only [tryFoldVel, hstep]

/-! ## Loop lemmas and the move-and-slide claims -/

/-- A finished loop state is a fixed point of the loop body (the Rust loop
has already executed `break`). -/
theorem moveAndSlideIter_finished {σ : Type} (world : SweepWorld)
    (config : MoveAndSlideConfig) (onHit : OnHitCallback σ) (od : Vec3)
    (s : LoopState σ) (h : s.finished = true) :
    moveAndSlideIter world config onHit od s = s := by
  unfold moveAndSlideIter
  rw [if_pos h]

/-- Each loop iteration performs at most one sweep. -/
theorem moveAndSlideIter_sweeps {σ : Type} (world : SweepWorld)
    (config : MoveAndSlideConfig) (onHit : OnHitCallback σ) (od : Vec3)
    (s : LoopState σ) :
    (moveAndSlideIter world config onHit od s).sweeps ≤ s.sweeps + 1 := by
  unfold moveAndSlideIter
  split
  · exact Nat.le_succ _
  · dsimp only
    split
    · simp
    · split
      · simp
      · simp

/-- Iterating the loop body `n` times performs at most `n` sweeps. -/
theorem moveAndSlideIter_iterate_sweeps {σ : Type} (world : SweepWorld)
    (config : MoveAndSlideConfig) (onHit : OnHitCallback σ) (od : Vec3)
    (n : ℕ) (s : LoopState σ) :
    ((moveAndSlideIter world config onHit od)^[n] s).sweeps ≤ s.sweeps + n := by
  induction n generalizing s with
  | zero => simp
  | succ k ih =>
    rw [Function.iterate_succ_apply]
    calc ((moveAndSlideIter world config onHit od)^[k]
          (moveAndSlideIter world config onHit od s)).sweeps
        ≤ (moveAndSlideIter world config onHit od s).sweeps + k := ih _
      _ ≤ s.sweeps + 1 + k :=
          Nat.add_le_add_right (moveAndSlideIter_sweeps world config onHit od s) k
      _ = s.sweeps + (k + 1) := by omega

/-- Claim C9: move_and_slide has no failure path on degenerate input — called
with zero velocity (a direction that cannot be normalized) it returns
immediately with translation and velocity unchanged; the sweep direction
inside the loop is by definition the explicit fallback `Dir3::Y` whenever the
working velocity normalizes to zero, not an error. -/
theorem moveAndSlide_zero_velocity {σ : Type} (world : SweepWorld)
    (config : MoveAndSlideConfig) (onHit : OnHitCallback σ) (t : Vec3)
    (dt : ℝ) (s0 : σ) :
    (moveAndSlide world config onHit t 0 dt s0).translation = t ∧
    (moveAndSlide world config onHit t 0 dt s0).velocity = 0 := by
  unfold moveAndSlide
  simp only [Vec3.dir3New, if_pos rfl]
  exact ⟨rfl, rfl⟩

/-- Claim C6: move_and_slide always terminates (it is a total function of its
inputs) and performs at most `config.max_iterations` sweep/project iterations
per call, for every world, callback, and input — including when the remaining
time budget is not consumed. -/
theorem moveAndSlide_sweeps_bounded {σ : Type} (world : SweepWorld)
    (config : MoveAndSlideConfig) (onHit : OnHitCallback σ) (t v : Vec3)
    (dt : ℝ) (s0 : σ) :
    (moveAndSlide world config onHit t v dt s0).sweeps ≤ config.max_iterations := by
  unfold moveAndSlide
  cases h : Vec3.dir3New v with
  | none => simp
  | some od =>
    dsimp only
    have := moveAndSlideIter_iterate_sweeps world config onHit od
      config.max_iterations ⟨t, v, dt, [], s0, false, 0⟩
    simpa using this

/-- Claim C8: when the first sweep finds no hit within range, move_and_slide
translates by `velocity * delta_time` and terminates with the velocity
unchanged. -/
theorem moveAndSlide_no_hit {σ : Type} (world : SweepWorld)
    (config : MoveAndSlideConfig) (onHit : OnHitCallback σ) (t v : Vec3)
    (dt : ℝ) (s0 : σ) (hv : v ≠ 0) (hiter : 1 ≤ config.max_iterations)
    (hnohit : world t (dir3UnwrapOrY (Vec3.normalizeOrZero v))
      (Vec3.length v * dt + config.skin_width) = none) :
    (moveAndSlide world config onHit t v dt s0).translation = t + dt • v ∧
    (moveAndSlide world config onHit t v dt s0).velocity = v := by
  obtain ⟨k, hk⟩ : ∃ k, config.max_iterations = k + 1 :=
    ⟨config.max_iterations - 1, by omega⟩
  have hstep : moveAndSlideIter world config onHit (Vec3.normalizeOrZero v)
      ⟨t, v, dt, [], s0, false, 0⟩ =
      ⟨t + dt • v, v, dt, [], s0, true, 1⟩ := by
    unfold moveAndSlideIter characterSweep
    rw [if_neg (by simp)]
    dsimp only
    rw [hnohit]
  unfold moveAndSlide
  simp only [Vec3.dir3New, if_neg hv]
  rw [hk, Function.iterate_succ_apply, hstep,
    Function.iterate_fixed (moveAndSlideIter_finished world config onHit
      (Vec3.normalizeOrZero v) ⟨t + dt • v, v, dt, [], s0, true, 1⟩ rfl) k]
  exact ⟨rfl, rfl⟩

theorem moveAndSlide_no_hit_witness :
    ((⟨1, 0, 0⟩ : Vec3) ≠ 0) ∧ 1 ≤ MoveAndSlideConfig.default.max_iterations ∧
    (moveAndSlide (fun _ _ _ => none) MoveAndSlideConfig.default noopOnHit
      0 ⟨1, 0, 0⟩ 1 ()).translation = 0 + (1 : ℝ) • ⟨1, 0, 0⟩ ∧
    (moveAndSlide (fun _ _ _ => none) MoveAndSlideConfig.default noopOnHit
      0 ⟨1, 0, 0⟩ 1 ()).velocity = ⟨1, 0, 0⟩ := by
  have hv : (⟨1, 0, 0⟩ : Vec3) ≠ 0 := by
    intro h; have := congrArg Vec3.x h; norm_num at this
  have h := moveAndSlide_no_hit (fun _ _ _ => none) MoveAndSlideConfig.default
    noopOnHit 0 ⟨1, 0, 0⟩ 1 () hv (by norm_num [MoveAndSlideConfig.default]) rfl
  exact ⟨hv, by norm_num [MoveAndSlideConfig.default], h.1, h.2⟩

theorem Vec3.normalizeOrZero_e1 : Vec3.normalizeOrZero ⟨1, 0, 0⟩ = ⟨1, 0, 0⟩ := by
  have hne : (⟨1, 0, 0⟩ : Vec3) ≠ 0 := by
    intro h; have := congrArg Vec3.x h; norm_num at this
  have hlen : Vec3.length ⟨1, 0, 0⟩ = 1 := by
    rw [Vec3.length]
    norm_num [Vec3.lengthSq, Vec3.dot, Real.sqrt_one]
  rw [Vec3.normalizeOrZero, if_neg hne, hlen]
  ext <;> simp

/-- Head-on collision with a single opposing wall clips the velocity to zero. -/
theorem solve_head_on_zero :
    solveCollisionPlanes ⟨1, 0, 0⟩ [⟨-1, 0, 0⟩] ⟨1, 0, 0⟩ = 0 := by
  have hv : (⟨1, 0, 0⟩ : Vec3) ≠ 0 := by
    intro h; have := congrArg Vec3.x h; norm_num at this
  have hsim : ¬ similarPlane (Vec3.normalizeOrZero ⟨1, 0, 0⟩) (⟨-1, 0, 0⟩ : Vec3) := by
    rw [Vec3.normalizeOrZero_e1]
    simp only [similarPlane, Vec3.dot, SIMILARITY_THRESHOLD]
    norm_num
  have h := solve_single_hit_reject ⟨1, 0, 0⟩ ⟨1, 0, 0⟩ ⟨-1, 0, 0⟩ hv hv
    (by norm_num [Vec3.dot]) (by norm_num [Vec3.dot]) hsim
  rw [h.1]
  simp only [Vec3.rejectFromNormalized, Vec3.dot]
  ext <;> simp

/-- Claim C4 counterexample: with `delta_time = 0`, a no-op callback, and a
wall half a skin width away opposing the velocity, move_and_slide clips the
velocity to zero — the call is not a no-op on the velocity even though no
time passes. -/
theorem moveAndSlide_zero_dt_clips_velocity :
    (moveAndSlide (fun _ _ _ => some ⟨1 / 200, ⟨-1, 0, 0⟩, 0⟩)
      MoveAndSlideConfig.default noopOnHit 0 ⟨1, 0, 0⟩ 0 ()).velocity = 0 ∧
    (⟨1, 0, 0⟩ : Vec3) ≠ 0 := by
  have hv : (⟨1, 0, 0⟩ : Vec3) ≠ 0 := by
    intro h; have := congrArg Vec3.x h; norm_num at this
  have hstep : moveAndSlideIter (fun _ _ _ => some ⟨1 / 200, ⟨-1, 0, 0⟩, 0⟩)
      MoveAndSlideConfig.default noopOnHit (Vec3.normalizeOrZero ⟨1, 0, 0⟩)
      ⟨0, ⟨1, 0, 0⟩, 0, [], (), false, 0⟩ =
      ⟨0, 0, 0, [⟨-1, 0, 0⟩], (), true, 1⟩ := by
    unfold moveAndSlideIter characterSweep
    rw [if_neg (by simp)]
    dsimp only [noopOnHit]
    rw [Vec3.normalizeOrZero_e1,
      show (([] : List Vec3) ++ [⟨-1, 0, 0⟩]) = [⟨-1, 0, 0⟩] from rfl,
      solve_head_on_zero]
    rw [if_pos (by simp)]
  unfold moveAndSlide
  simp only [Vec3.dir3New, if_neg hv]
  rw [show MoveAndSlideConfig.default.max_iterations = 3 + 1 from rfl,
    Function.iterate_succ_apply, hstep,
    Function.iterate_fixed (moveAndSlideIter_finished _ _ _ _ _ rfl) 3]
  exact ⟨rfl, hv⟩

/-- With zero remaining time, a no-op callback, nonnegative epsilon and skin
width, and a world that respects the queried range, one loop iteration keeps
the translation and the zero remaining time. -/
theorem moveAndSlideIter_zero_time (world : SweepWorld)
    (config : MoveAndSlideConfig) (od t0 : Vec3)
    (hvalid : ∀ o d m hit, world o d m = some hit → hit.distance ≤ m)
    (heps : 0 ≤ config.epsilon) (hskin : 0 ≤ config.skin_width)
    (s : LoopState Unit) (ht : s.translation = t0) (hr : s.remainingTime = 0) :
    (moveAndSlideIter world config noopOnHit od s).translation = t0 ∧
    (moveAndSlideIter world config noopOnHit od s).remainingTime = 0 := by
  unfold moveAndSlideIter
  split
  · exact ⟨ht, hr⟩
  · dsimp only [noopOnHit]
    split
    next heq =>
      refine ⟨?_, hr⟩
      rw [hr] at *
      simp [ht]
    next safe hit heq =>
      have hdist : hit.distance ≤ Vec3.length s.velocity * s.remainingTime +
          config.skin_width ∧ safe = max (hit.distance - config.epsilon) 0 := by
        unfold characterSweep at heq
        cases hw : world s.translation (dir3UnwrapOrY (Vec3.normalizeOrZero s.velocity))
            (Vec3.length s.velocity * s.remainingTime + config.skin_width) with
        | none => rw [hw] at heq; exact absurd heq (by simp)
        | some h0 =>
          rw [hw] at heq
          have hinj := Option.some.inj heq
          have h1 : h0 = hit := congrArg Prod.snd hinj
          refine ⟨?_, ?_⟩
          · rw [← h1]; exact hvalid _ _ _ _ hw
          · have h2 : (h0.distance - config.epsilon) ⊔ 0 = safe := congrArg Prod.fst hinj
            rw [← h2, h1]
      have hsafe_le : safe ≤ config.skin_width := by
        rw [hdist.2]
        have hd : hit.distance ≤ config.skin_width := by
          have := hdist.1
          rw [hr, mul_zero, zero_add] at this
          exact this
        exact max_le (by linarith) hskin
      have hmove : max (safe - config.skin_width) 0 = 0 :=
        max_eq_right (by linarith)
      split
      · exact ⟨ht, hr⟩
      · constructor
        · rw [hmove]
          simp [ht]
        · rw [hr, zero_mul]

/-- Iterating the loop body any number of times with zero remaining time and a
no-op callback keeps the translation. -/
theorem moveAndSlideIter_iterate_zero_time (world : SweepWorld)
    (config : MoveAndSlideConfig) (od t0 : Vec3)
    (hvalid : ∀ o d m hit, world o d m = some hit → hit.distance ≤ m)
    (heps : 0 ≤ config.epsilon) (hskin : 0 ≤ config.skin_width)
    (n : ℕ) (s : LoopState Unit) (ht : s.translation = t0) (hr : s.remainingTime = 0) :
    ((moveAndSlideIter world config noopOnHit od)^[n] s).translation = t0 ∧
    ((moveAndSlideIter world config noopOnHit od)^[n] s).remainingTime = 0 := by
  induction n generalizing s with
  | zero => exact ⟨ht, hr⟩
  | succ k ih =>
    rw [Function.iterate_succ_apply]
    have h := moveAndSlideIter_zero_time world config od t0 hvalid heps hskin s ht hr
    exact ih _ h.1 h.2

/-- Claim C4 (amended): calling move_and_slide with `delta_time = 0` and a
callback that writes nothing back never moves the character: the translation
is unchanged for every world whose reported hit distance respects the queried
range, given nonnegative epsilon and skin width. The velocity, however, may
be re-projected against surfaces within skin width of the character (see the
counterexample); it is unchanged whenever the world reports no hit. A second
call with zero delta time then leaves the translation unchanged again, by
the same theorem applied to the new state. -/
theorem moveAndSlide_zero_dt_noop (world : SweepWorld)
    (config : MoveAndSlideConfig) (t v : Vec3)
    (hvalid : ∀ o d m hit, world o d m = some hit → hit.distance ≤ m)
    (heps : 0 ≤ config.epsilon) (hskin : 0 ≤ config.skin_width) :
    (moveAndSlide world config noopOnHit t v 0 ()).translation = t ∧
    ((∀ o d m, world o d m = none) →
      (moveAndSlide world config noopOnHit t v 0 ()).velocity = v) := by
  constructor
  · unfold moveAndSlide
    cases h : Vec3.dir3New v with
    | none => rfl
    | some od =>
      exact (moveAndSlideIter_iterate_zero_time world config od t hvalid heps hskin
        config.max_iterations ⟨t, v, 0, [], (), false, 0⟩ rfl rfl).1
  · intro hnone
    unfold moveAndSlide
    cases h : Vec3.dir3New v with
    | none => rfl
    | some od =>
      dsimp only
      cases hk : config.max_iterations with
      | zero => rfl
      | succ k =>
        have hstep : moveAndSlideIter world config noopOnHit od
            ⟨t, v, 0, [], (), false, 0⟩ =
            ⟨t + (0 : ℝ) • v, v, 0, [], (), true, 1⟩ := by
          unfold moveAndSlideIter characterSweep
          rw [if_neg (by simp)]
          dsimp only
          rw [hnone]
        rw [Function.iterate_succ_apply, hstep,
          Function.iterate_fixed (moveAndSlideIter_finished _ _ _ _ _ rfl) k]

theorem moveAndSlide_zero_dt_noop_witness :
    (0 : ℝ) ≤ MoveAndSlideConfig.default.epsilon ∧
    (0 : ℝ) ≤ MoveAndSlideConfig.default.skin_width ∧
    (moveAndSlide (fun _ _ _ => none) MoveAndSlideConfig.default noopOnHit
      ⟨2, 3, 4⟩ ⟨1, 0, 0⟩ 0 ()).translation = ⟨2, 3, 4⟩ ∧
    (moveAndSlide (fun _ _ _ => none) MoveAndSlideConfig.default noopOnHit
      ⟨2, 3, 4⟩ ⟨1, 0, 0⟩ 0 ()).velocity = ⟨1, 0, 0⟩ := by
  have h := moveAndSlide_zero_dt_noop (fun _ _ _ => none) MoveAndSlideConfig.default
    ⟨2, 3, 4⟩ ⟨1, 0, 0⟩
    (fun o d m hit hc => absurd hc (by simp))
    (by norm_num [MoveAndSlideConfig.default])
    (by norm_num [MoveAndSlideConfig.default])
  exact ⟨by norm_num [MoveAndSlideConfig.default],
    by norm_num [MoveAndSlideConfig.default], h.1, h.2 (fun _ _ _ => rfl)⟩

/-- Claim C5: a step-up climb attempt succeeds only if the final resting
surface passes the walkability test at the reduced tolerance
`walkable_angle - 1e-4`: whenever the settled surface normal makes an angle
with up in `[walkable_angle - 1e-4, walkable_angle)`, the ordinary
walkability test accepts the surface as ground, yet the climb attempt fails
and the caller falls back to sliding. -/
theorem step_up_fails_at_boundary
    (climb : Vec3 → Option (Vec3 × ShapeHitData))
    (walkable_angle character_radius : ℝ) (up hit_normal direction : Vec3)
    (step_forward0 epsilon delta_time : ℝ) (n : Vec3)
    (hclimb : ∀ motion tr hit, climb motion = some (tr, hit) → hit.normal1 = n)
    (hlo : walkable_angle - 1 / 10000 ≤ angleBetween n up)
    (hhi : angleBetween n up < walkable_angle) :
    isWalkable n up walkable_angle ∧
    tryStepUpOnHit climb walkable_angle character_radius up hit_normal direction
      step_forward0 epsilon delta_time = none := by
  refine ⟨by unfold isWalkable; exact hhi, ?_⟩
  unfold tryStepUpOnHit
  dsimp only
  split
  · rfl
  next tr hit heq =>
    rw [hclimb _ _ _ heq]
    unfold groundNewIfWalkable
    rw [if_neg (by unfold isWalkable; exact not_lt.mpr hlo)]

theorem step_up_fails_at_boundary_witness :
    ((1 : ℝ) / 20000 - 1 / 10000 ≤ angleBetween ⟨0, 1, 0⟩ ⟨0, 1, 0⟩) ∧
    (angleBetween ⟨0, 1, 0⟩ ⟨0, 1, 0⟩ < 1 / 20000) ∧
    isWalkable ⟨0, 1, 0⟩ ⟨0, 1, 0⟩ (1 / 20000) ∧
    tryStepUpOnHit (fun _ => some (0, ⟨0, ⟨0, 1, 0⟩, 0⟩)) (1 / 20000) (7 / 20)
      ⟨0, 1, 0⟩ ⟨1, 0, 0⟩ ⟨1, 0, 0⟩ 1 (1 / 10000) (1 / 60) = none := by
  have hang : angleBetween (⟨0, 1, 0⟩ : Vec3) ⟨0, 1, 0⟩ = 0 := by
    unfold angleBetween
    have hlen : Vec3.length ⟨0, 1, 0⟩ = 1 := by
      rw [Vec3.length]
      norm_num [Vec3.lengthSq, Vec3.dot, Real.sqrt_one]
    rw [hlen]
    norm_num [Vec3.dot, Real.arccos_one]
  have h := step_up_fails_at_boundary (fun _ => some (0, ⟨0, ⟨0, 1, 0⟩, 0⟩))
    (1 / 20000) (7 / 20) ⟨0, 1, 0⟩ ⟨1, 0, 0⟩ ⟨1, 0, 0⟩ 1 (1 / 10000) (1 / 60)
    ⟨0, 1, 0⟩
    (by
      intro motion tr hit hc
      have h1 := Option.some.inj hc
      have h2 : hit = ⟨0, ⟨0, 1, 0⟩, 0⟩ := (congrArg Prod.snd h1).symm
      rw [h2])
    (by rw [hang]; norm_num)
    (by rw [hang]; norm_num)
  exact ⟨by rw [hang]; norm_num, by rw [hang]; norm_num, h.1, h.2⟩

/-- Elements produced by the Rust-style filter come from the input list. -/
theorem filterPlanes_subset (p : Vec3 → Prop) (l : List Vec3) :
    ∀ n ∈ filterPlanes p l, n ∈ l := by
  induction l with
  | nil => intro n hn; exact absurd hn (by simp [filterPlanes])
  | cons a rest ih =>
    intro n hn
    unfold filterPlanes at hn
    by_cases hp : p a
    · rw [if_pos hp] at hn
      rcases List.mem_cons.mp hn with h | h
      · exact h ▸ List.mem_cons_self a rest
      · exact List.mem_cons_of_mem a (ih n h)
    · rw [if_neg hp] at hn
      exact List.mem_cons_of_mem a (ih n hn)

/-- Every outcome of the fold closure keeps a nonnegative dot product with the
most recent (unit) hit normal: the similar-plane branch returns a velocity
with positive alignment, the crease projection is orthogonal to it, and the
corner nudge points away from both unit planes. -/
theorem solveFoldStep_dot_nonneg (f : Vec3) (all_hits : List Vec3) (vel n : Vec3)
    (hf : Vec3.dot f f = 1) (hn : Vec3.dot n n = 1) :
    0 ≤ Vec3.dot (Sum.elim id id (solveFoldStep f all_hits vel n)) f := by
  unfold solveFoldStep
  dsimp only
  by_cases hsim :
      similarPlane (Vec3.normalizeOrZero (Vec3.rejectFromNormalized vel n)) f
  · rw [if_pos hsim]
    have hyne : Vec3.rejectFromNormalized vel n ≠ 0 := by
      intro h0
      rw [h0, Vec3.normalizeOrZero_zero] at hsim
      rw [similarPlane, Vec3.dot_zero_left] at hsim
      norm_num [SIMILARITY_THRESHOLD] at hsim
    have hst : (0 : ℝ) < SIMILARITY_THRESHOLD := by norm_num [SIMILARITY_THRESHOLD]
    have hpos : 0 < Vec3.dot (Vec3.rejectFromNormalized vel n) f := by
      have h1 : SIMILARITY_THRESHOLD <
          (Vec3.length (Vec3.rejectFromNormalized vel n))⁻¹ *
            Vec3.dot (Vec3.rejectFromNormalized vel n) f := by
        rw [← Vec3.dot_normalizeOrZero_left]
        exact hsim
      have hl := inv_pos.mpr (Vec3.length_pos_of_ne _ hyne)
      nlinarith
    split
    · exact le_of_lt hpos
    · exact le_of_lt hpos
  · rw [if_neg hsim]
    have hcf : Vec3.dot
        (Vec3.normalizeOrZero (Vec3.cross f n)) f = 0 := by
      rw [Vec3.dot_normalizeOrZero_left, Vec3.dot_cross_left, mul_zero]
    have hvpf : Vec3.dot (Vec3.projectOnto (Vec3.rejectFromNormalized vel n)
        (Vec3.normalizeOrZero (Vec3.cross f n))) f = 0 := by
      rw [Vec3.projectOnto, Vec3.dot_smul_left, hcf, mul_zero]
    split
    · -- corner deadlock: the nudge points away from both unit planes
      dsimp only [Sum.elim, id]
      rw [Vec3.dot_add_left, hvpf, zero_add, Vec3.dot_smul_left]
      by_cases hfn : f + n = 0
      · rw [hfn, Vec3.normalizeOrZero_zero, Vec3.dot_zero_left, mul_zero]
      · rw [Vec3.dot_normalizeOrZero_left]
        have h1 : Vec3.dot (f + n) f = 1 + Vec3.dot n f := by
          rw [Vec3.dot_add_left, hf]
        rw [h1]
        have hcs := Vec3.dot_sq_le n f
        rw [show Vec3.lengthSq n = 1 from by rw [Vec3.lengthSq, hn],
          show Vec3.lengthSq f = 1 from by rw [Vec3.lengthSq, hf], mul_one] at hcs
        have hge : -1 ≤ Vec3.dot n f := by nlinarith
        have hl : 0 ≤ (Vec3.length (f + n))⁻¹ :=
          le_of_lt (inv_pos.mpr (Vec3.length_pos_of_ne _ hfn))
        have hsum : 0 ≤ 1 + Vec3.dot n f := by linarith
        positivity
    · split
      · exact le_of_eq hvpf.symm
      · exact le_of_eq hvpf.symm

/-- Folding the clipping closure over any list of unit constraint normals
preserves a nonnegative dot product with the most recent unit hit normal. -/
theorem tryFoldVel_dot_nonneg (f : Vec3) (all_hits : List Vec3)
    (hf : Vec3.dot f f = 1) :
    ∀ ns : List Vec3, (∀ n ∈ ns, Vec3.dot n n = 1) →
    ∀ vel : Vec3, 0 ≤ Vec3.dot vel f →
    0 ≤ Vec3.dot (tryFoldVel (solveFoldStep f all_hits) vel ns) f := by
  intro ns
  induction ns with
  | nil =>
    intro _ vel h
    simpa [tryFoldVel] using h
  | cons n rest ih =>
    intro hns vel hvel
    have hstep := solveFoldStep_dot_nonneg f all_hits vel n hf
      (hns n (List.mem_cons_self n rest))
    unfold tryFoldVel
    cases hcase : solveFoldStep f all_hits vel n with
    | inl out =>
      rw [hcase] at hstep
      simpa using hstep
    | inr out =>
      rw [hcase] at hstep
      exact ih (fun m hm => hns m (List.mem_cons_of_mem n hm)) out (by simpa using hstep)

/-- Claim C10: for every nonzero velocity, nonzero wish direction, and
non-empty list of unit hit normals, the velocity returned by the solver never
points into the most recently hit plane: its dot product with the last normal
of the list is nonnegative on every return path. -/
theorem solve_never_into_last_plane (v wish : Vec3) (hits : List Vec3)
    (hv : v ≠ 0) (hw : wish ≠ 0) (hne : hits ≠ [])
    (hunit : ∀ n ∈ hits, Vec3.dot n n = 1) :
    0 ≤ Vec3.dot (solveCollisionPlanes v hits wish) (hits.getLastD 0) := by
  have hLmem : hits.getLastD 0 ∈ hits := by
    cases hits with
    | nil => exact absurd rfl hne
    | cons a rest =>
      rw [List.getLastD_cons]
      exact List.getLastD_mem_cons rest a
  have hLunit : Vec3.dot (hits.getLastD 0) (hits.getLastD 0) = 1 :=
    hunit _ hLmem
  unfold solveCollisionPlanes
  rw [if_neg (by
    push_neg
    exact ⟨Vec3.lengthSq_pos_of_ne v hv, Vec3.lengthSq_pos_of_ne wish hw⟩),
    if_neg hne]
  dsimp only
  by_cases hd : Vec3.dot v (hits.getLastD 0) ≥ 0
  · rw [if_pos hd]
    exact hd
  · rw [if_neg hd]
    have hinit : Vec3.dot (Vec3.rejectFromNormalized v (hits.getLastD 0))
        (hits.getLastD 0) = 0 := by
      rw [Vec3.rejectFromNormalized, Vec3.dot_sub_left, Vec3.dot_smul_left,
        hLunit, mul_one, sub_self]
    have hall : ∀ n ∈ (Vec3.normalizeOrZero wish :: hits), Vec3.dot n n = 1 := by
      intro n hmem
      rcases List.mem_cons.mp hmem with h | h
      · rw [h]; exact Vec3.dot_normalizeOrZero_self wish hw
      · exact hunit n h
    refine tryFoldVel_dot_nonneg (hits.getLastD 0)
      (Vec3.normalizeOrZero wish :: hits) hLunit _ ?_ _ (le_of_eq hinit.symm)
    intro m hm
    exact hall m (filterPlanes_subset _ _ m hm)

theorem solve_never_into_last_plane_witness :
    ((⟨1, 0, 0⟩ : Vec3) ≠ 0) ∧ (([⟨-1, 0, 0⟩] : List Vec3) ≠ []) ∧
    0 ≤ Vec3.dot (solveCollisionPlanes ⟨1, 0, 0⟩ [⟨-1, 0, 0⟩] ⟨1, 0, 0⟩)
      (([⟨-1, 0, 0⟩] : List Vec3).getLastD 0) := by
  have hv : (⟨1, 0, 0⟩ : Vec3) ≠ 0 := by
    intro h; have := congrArg Vec3.x h; norm_num at this
  refine ⟨hv, by simp, ?_⟩
  exact solve_never_into_last_plane ⟨1, 0, 0⟩ ⟨1, 0, 0⟩ [⟨-1, 0, 0⟩] hv hv (by simp)
    (by
      intro m hm
      rw [List.mem_singleton] at hm
      rw [hm]
      norm_num [Vec3.dot])
